import Mathlib

/-!
# Verification of the mapbox-gl-js camera engine and event bus

This file is a shallow embedding, in Lean 4, of the camera-control core of
the mapbox-gl-js repository: the event bus of `src/util/evented.js` and the
camera engine of `src/ui/camera.js`.  Machine numbers are modelled as
rationals; where the `flyTo` flight-path arithmetic can produce NaN or an
infinity under JavaScript semantics, an explicit extended-number type is
used.  External collaborators (the `Transform` projection methods, the
`Math` transcendental functions, the frame scheduler and the clock) are
parameters of the model, as the specification treats them as external.
Events fired by the camera are observed as a trace, in firing order.
-/

set_option maxRecDepth 8000
set_option allowUnsafeReducibility true

namespace Mapbox

/-- Modelled from the spec: the numeric wrap helper of the missing util
module, wrapping `n` into the half-open interval `[lo, hi)` (the spec:
"wraps to `[-180,180)`"). -/
def wrapNum (n lo hi : ℚ) : ℚ :=
  let d := hi - lo
  (n - lo) - d * ((⌊(n - lo) / d⌋ : ℤ) : ℚ) + lo

/-- Modelled from the spec: the clamp helper of the missing util module,
clamping `n` into `[lo, hi]` (the spec: "clamped to `[minZoom,maxZoom]`"). -/
def clampNum (n lo hi : ℚ) : ℚ := min (max n lo) hi

/-- Modelled from the spec: the external scalar interpolation primitive
`interpolate(a,b,k)`, "linear interpolation of the value". -/
def interpolate (a b t : ℚ) : ℚ := a * (1 - t) + b * t

/-- Modelled from the spec: the default ease-in-out easing function of the
missing util module.  Claims never evaluate it; only its type matters. -/
def defaultEasing (t : ℚ) : ℚ := t * t * (3 - 2 * t)

/-! ## JavaScript number semantics

The flight-path computation of `flyTo` divides by quantities that can be
zero, so its intermediate values follow IEEE semantics: rationals extended
with NaN and two infinities.  Signed zero is not distinguished; no claim
depends on it. -/

/-- JavaScript double values as far as the embedded arithmetic needs them:
a finite rational, NaN, or a signed infinity (`inf true` is negative). -/
inductive JSNum where
  | num (q : ℚ)
  | nan
  | inf (neg : Bool)
deriving DecidableEq, Repr

/-- Inclusion of the finite rationals into `JSNum`. -/
def jnum (q : ℚ) : JSNum := .num q

/-- IEEE negation. -/
def jneg : JSNum → JSNum
  | .num a => .num (-a)
  | .nan => .nan
  | .inf s => .inf (!s)

/-- IEEE addition (opposite infinities give NaN). -/
def jadd : JSNum → JSNum → JSNum
  | .num a, .num b => .num (a + b)
  | .nan, _ => .nan
  | _, .nan => .nan
  | .inf s, .inf t => if s = t then .inf s else .nan
  | .inf s, .num _ => .inf s
  | .num _, .inf s => .inf s

/-- IEEE subtraction. -/
def jsub (a b : JSNum) : JSNum := jadd a (jneg b)

/-- IEEE multiplication (infinity times zero gives NaN). -/
def jmul : JSNum → JSNum → JSNum
  | .num a, .num b => .num (a * b)
  | .nan, _ => .nan
  | _, .nan => .nan
  | .inf s, .inf t => .inf (s != t)
  | .inf s, .num b => if b = 0 then .nan else .inf (s != decide (b < 0))
  | .num b, .inf s => if b = 0 then .nan else .inf (s != decide (b < 0))

/-- IEEE division: a nonzero finite value divided by zero is a signed
infinity, zero by zero is NaN, infinity by infinity is NaN. -/
def jdiv : JSNum → JSNum → JSNum
  | .num a, .num b =>
      if b = 0 then (if a = 0 then .nan else .inf (decide (a < 0)))
      else .num (a / b)
  | .nan, _ => .nan
  | _, .nan => .nan
  | .inf _, .inf _ => .nan
  | .inf s, .num b => .inf (s != decide (b < 0))
  | .num _, .inf _ => .num 0

/-- IEEE absolute value. -/
def jabs : JSNum → JSNum
  | .num a => .num |a|
  | .nan => .nan
  | .inf _ => .inf false

/-- IEEE strict less-than; every comparison with NaN is false. -/
def jlt : JSNum → JSNum → Bool
  | .num a, .num b => decide (a < b)
  | .nan, _ => false
  | _, .nan => false
  | .inf s, .inf t => s && !t
  | .inf s, .num _ => s
  | .num _, .inf t => !t

/-- JavaScript strict equality `===` on numbers; NaN equals nothing. -/
def jseq : JSNum → JSNum → Bool
  | .num a, .num b => a == b
  | .inf s, .inf t => s == t
  | _, _ => false

/-- JavaScript `isFinite`. -/
def JSNum.isFinite : JSNum → Bool
  | .num _ => true
  | _ => false

/-- Projection back to the rationals.  Non-finite values map to `0`; this
is a modelling boundary used only where an external collaborator is handed
a value that the claims never exercise. -/
def jtoQ : JSNum → ℚ
  | .num q => q
  | _ => 0

/-! ## Screen points -/

/-- Pointwise sum of two screen points (`Point#add`). -/
def padd (a b : ℚ × ℚ) : ℚ × ℚ := (a.1 + b.1, a.2 + b.2)

/-- Pointwise difference of two screen points (`Point#sub`). -/
def psub (a b : ℚ × ℚ) : ℚ × ℚ := (a.1 - b.1, a.2 - b.2)

/-- Scalar multiple of a screen point (`Point#mult`). -/
def pmulS (a : ℚ × ℚ) (s : ℚ) : ℚ × ℚ := (a.1 * s, a.2 * s)

/-! ## The event bus (`src/util/evented.js`)

Listener registries are association lists from event-type strings to lists
of listener identifiers, preserving registration order.  Listeners are
identified by natural numbers; what a listener does to the registries of
the instance it fires on is given by an environment mapping identifiers to
registry actions, so that dispatch can be analysed for every possible
re-entrant mutation of the registries.  Each dispatch appends to a log that
records, in order, which listener was invoked with which event value. -/

/-- Event payloads: a JavaScript object modelled as an association list. -/
abbrev Obj := List (String × Nat)

/-- Per-instance listener registry, in registration order. -/
abbrev Reg := List (String × List Nat)

/-- Look up the listener list for an event type (missing key means `[]`). -/
def regGet (r : Reg) (t : String) : List Nat := (List.lookup t r).getD []

/-- Replace the listener list stored for a key, keeping list order. -/
def regSet : Reg → String → List Nat → Reg
  | [], t, v => [(t, v)]
  | (u, w) :: rest, t, v =>
      if u = t then (t, v) :: rest else (u, w) :: regSet rest t v

/-- Embedding of `_addEventListener`: a duplicate `(type, listener)` pair
is a no-op, otherwise the listener is appended. -/
def addListenerTo (t : String) (l : Nat) (r : Reg) : Reg :=
  if (regGet r t).contains l then r else regSet r t (regGet r t ++ [l])

/-- Embedding of `_removeEventListener`: removes the first occurrence of
the listener under the given type, if any. -/
def removeListenerFrom (t : String) (l : Nat) (r : Reg) : Reg :=
  match List.lookup t r with
  | none => r
  | some ls => regSet r t (ls.erase l)

/-- Parent-supplied extra data: a static object or a zero-argument
producer evaluated at fire time (`_eventedParentData`). -/
abbrev PData := Sum Obj (Unit → Obj)

/-- An `Evented` instance: an identifier (a modelling device standing for
object identity, observed through `event.target`), the persistent and
one-time registries, the optional parent, and the parent data. -/
inductive Evented where
  | mk (ident : Nat) (listeners oneTime : Reg) (parent : Option Evented)
       (parentData : Option PData)

/-- Identity of an instance. -/
def Evented.idOf : Evented → Nat
  | .mk i _ _ _ _ => i

/-- Persistent registry of an instance. -/
def Evented.listenersOf : Evented → Reg
  | .mk _ ls _ _ _ => ls

/-- One-time registry of an instance. -/
def Evented.oneTimeOf : Evented → Reg
  | .mk _ _ ot _ _ => ot

/-- Parent of an instance (`_eventedParent`). -/
def Evented.parentOf : Evented → Option Evented
  | .mk _ _ _ p _ => p

/-- Parent data of an instance (`_eventedParentData`). -/
def Evented.parentDataOf : Evented → Option PData
  | .mk _ _ _ _ d => d

/-- Replace the parent component of an instance. -/
def setParent : Evented → Option Evented → Evented
  | .mk i ls ot _ d, p => .mk i ls ot p d

/-- What a listener may do to the registries of the instance it fires on:
nothing, `on`, `once`, `off`, or a sequence of those. -/
inductive LAct where
  | nop
  | addOn (t : String) (l : Nat)
  | addOnce (t : String) (l : Nat)
  | remove (t : String) (l : Nat)
  | seq (a b : LAct)

/-- Apply a listener action to an instance, exactly as `on`, `once` and
`off` of `Evented` act on the two registries. -/
def applyAct : LAct → Evented → Evented
  | .nop, ev => ev
  | .addOn t l, .mk i ls ot p d => .mk i (addListenerTo t l ls) ot p d
  | .addOnce t l, .mk i ls ot p d => .mk i ls (addListenerTo t l ot) p d
  | .remove t l, .mk i ls ot p d =>
      .mk i (removeListenerFrom t l ls) (removeListenerFrom t l ot) p d
  | .seq a b, ev => applyAct b (applyAct a ev)

/-- An event value: type string, `target` stamp, payload, and whether the
value is an `ErrorEvent` instance. -/
structure JEvent where
  type : String
  target : Option Nat
  payload : Obj
  isError : Bool
deriving DecidableEq, Repr

/-- Embedding of `Evented.listens`: some listener for the type exists on
this instance or on an ancestor. -/
def listens : Evented → String → Bool
  | .mk _ ls ot p _, t =>
      !(regGet ls t).isEmpty || !(regGet ot t).isEmpty ||
      (match p with
       | some pe => listens pe t
       | none => false)

/-- Observations produced by one `fire`: a listener invocation with the
event value it received, a removal from the one-time registry, or the
default console report of an unlistened error event. -/
inductive LogEntry where
  | invoke (l : Nat) (e : JEvent)
  | removedOnce (l : Nat)
  | consoleError (e : JEvent)
deriving DecidableEq, Repr

/-- Evaluate the parent data at fire time (`extend` with a missing object
adds nothing). -/
def evalPData : Option PData → Obj
  | none => []
  | some (.inl o) => o
  | some (.inr f) => f ()

/-- Set one key of a payload object. -/
def objSet : Obj → String → Nat → Obj
  | [], k, v => [(k, v)]
  | (k2, v2) :: rest, k, v =>
      if k2 = k then (k, v) :: rest else (k2, v2) :: objSet rest k v

/-- Embedding of the util `extend` on payload objects: keys of `src`
overwrite or extend `dst`. -/
def objExtend (dst src : Obj) : Obj :=
  src.foldl (fun acc kv => objSet acc kv.1 kv.2) dst

/-- The persistent-listener loop of `fire`: the snapshot list is fixed,
each listener action is applied to the threaded instance, and every
invocation is logged with the event it received. -/
def runListeners (env : Nat → LAct) (e : JEvent) :
    List Nat → Evented → Evented × List LogEntry
  | [], ev => (ev, [])
  | l :: rest, ev =>
      let ev1 := applyAct (env l) ev
      let r := runListeners env e rest ev1
      (r.1, .invoke l e :: r.2)

/-- Remove a listener from the one-time registry of an instance. -/
def removeOnce (t : String) (l : Nat) : Evented → Evented
  | .mk i ls ot p d => .mk i ls (removeListenerFrom t l ot) p d

/-- The one-time-listener loop of `fire`: each listener of the snapshot is
removed from the one-time registry and only then invoked. -/
def runOnceListeners (env : Nat → LAct) (e : JEvent) :
    List Nat → Evented → Evented × List LogEntry
  | [], ev => (ev, [])
  | l :: rest, ev =>
      let ev0 := removeOnce e.type l ev
      let ev1 := applyAct (env l) ev0
      let r := runOnceListeners env e rest ev1
      (r.1, .removedOnce l :: .invoke l e :: r.2)

/-- Embedding of `Evented.fire`.  When some listener exists in the parent
chain: the event is stamped with `target`, a snapshot of the persistent
listeners is invoked in registration order, then a snapshot of the
one-time listeners is removed-then-invoked, then the parent data is merged
into the event and the event is fired on the parent.  Otherwise an
unlistened `ErrorEvent` is reported to the console.  The string-signature
compatibility shim of the source is a typing artefact and is not
modelled. -/
def fire (env : Nat → LAct) : Evented → JEvent → Evented × List LogEntry
  | ev@(.mk i ls _ par pd), e =>
      if listens ev e.type then
        let eT : JEvent := { e with target := some i }
        let r1 := runListeners env eT (regGet ls e.type) ev
        let r2 := runOnceListeners env eT (regGet r1.1.oneTimeOf e.type) r1.1
        match par with
        | some p =>
            let eM : JEvent := { eT with payload := objExtend eT.payload (evalPData pd) }
            let rp := fire env p eM
            (setParent r2.1 (some rp.1), r1.2 ++ r2.2 ++ rp.2)
        | none => (r2.1, r1.2 ++ r2.2)
      else if e.isError then (ev, [.consoleError e])
      else (ev, [])

/-! ## The camera engine (`src/ui/camera.js`)

The camera owns a `Transform` value whose raw fields it mutates; all other
`Transform` behaviour (projection, anchor solving, zoom/scale conversion)
is an external collaborator, passed in as a record of functions, exactly
as the specification describes the collaborator contract.  Likewise the
`Math` transcendentals are a record of unconstrained functions.  Events
fired by camera operations are observed as a trace of `(name, eventData)`
pairs in firing order. -/

/-- Names of the lifecycle events the camera fires. -/
inductive EvName where
  | movestart | move | moveend
  | zoomstart | zoom | zoomend
  | rotatestart | rotate | rotateend
  | pitchstart | pitch | pitchend
deriving DecidableEq, Repr

/-- One fired event: its name and the `eventData` merged into it. -/
structure CamEv where
  name : EvName
  data : Option Nat
deriving DecidableEq, Repr

/-- The raw viewport state owned by the external `Transform`.  `lngRange`
records whether an explicit longitude-range constraint is set (only its
truthiness is consulted, in `_normalizeCenter`). -/
structure Transform where
  centerLng : ℚ
  centerLat : ℚ
  zoom : ℚ
  bearing : ℚ
  pitch : ℚ
  minZoom : ℚ
  maxZoom : ℚ
  width : ℚ
  height : ℚ
  scale : ℚ
  renderWorldCopies : Bool
  lngRange : Bool
deriving DecidableEq, Repr

/-- The external `Transform` collaborator operations the camera calls.
`setLocationAtPoint` solves for the centre that renders the given
geographic point at the given screen point and is modelled by the centre
it produces, per the collaborator contract of the specification. -/
structure TransformOps where
  project : Transform → ℚ × ℚ → ℚ × ℚ
  unproject : Transform → ℚ × ℚ → ℚ × ℚ
  pointLocation : Transform → ℚ × ℚ → ℚ × ℚ
  locationPoint : Transform → ℚ × ℚ → ℚ × ℚ
  setLocationAtPoint : Transform → ℚ × ℚ → ℚ × ℚ → ℚ × ℚ
  zoomScale : Transform → ℚ → ℚ
  scaleZoom : Transform → ℚ → ℚ
  centerPoint : Transform → ℚ × ℚ

/-- Apply `setLocationAtPoint` to a transform: only the centre changes. -/
def setLoc (ops : TransformOps) (tr : Transform) (geo pt : ℚ × ℚ) : Transform :=
  let c := ops.setLocationAtPoint tr geo pt
  { tr with centerLng := c.1, centerLat := c.2 }

/-- The external `Math` transcendentals used by the camera. -/
structure ExtMath where
  exp : JSNum → JSNum
  log : JSNum → JSNum
  sqrt : JSNum → JSNum
  pow : ℚ → ℚ → ℚ

/-- The `padding` option of `cameraForBounds`: a plain number or an object
whose field list keeps JavaScript key order. -/
inductive PaddingInput where
  | num (p : ℚ)
  | obj (fields : List (String × ℚ))
deriving DecidableEq, Repr

/-- The option bag accepted by the camera operations.  `none` means the
key is absent; JavaScript key-presence tests become `Option` matches. -/
structure CamOptions where
  center : Option (ℚ × ℚ)
  zoom : Option ℚ
  bearing : Option ℚ
  pitch : Option ℚ
  around : Option (ℚ × ℚ)
  offset : Option (ℚ × ℚ)
  duration : Option ℚ
  easing : Option (ℚ → ℚ)
  animate : Option Bool
  noMoveStart : Option Bool
  delayEndEvents : Option ℚ
  linear : Option Bool
  speed : Option ℚ
  screenSpeed : Option ℚ
  curve : Option ℚ
  minZoom : Option ℚ
  maxDuration : Option ℚ
  padding : Option PaddingInput
  maxZoom : Option ℚ

/-- The empty option bag. -/
def CamOptions.empty : CamOptions :=
  ⟨none, none, none, none, none, none, none, none, none, none,
   none, none, none, none, none, none, none, none, none⟩

/-- Data captured by the per-frame closure of `easeTo`. -/
structure EaseFrameParams where
  (startZoom zoom startBearing bearing startPitch pitch : ℚ)
  around : Option (ℚ × ℚ)
  aroundPoint : Option (ℚ × ℚ)
  pointAtOffset : ℚ × ℚ
  fromPt : ℚ × ℚ
  delta : ℚ × ℚ
  finalScale : ℚ
  eventData : Option Nat

/-- Data captured by the per-frame closure of `flyTo`: the flight-path
functions `w` and `u` and the path length `S`, plus the interpolation
endpoints. -/
structure FlyFrameParams where
  (startZoom zoom startBearing bearing startPitch pitch : ℚ)
  pointAtOffset : ℚ × ℚ
  fromPt : ℚ × ℚ
  delta : ℚ × ℚ
  pathS : JSNum
  w : JSNum → JSNum
  u : JSNum → JSNum
  eventData : Option Nat

/-- The stored `_onEaseFrame` callback, as the data it captured. -/
inductive FrameSpec where
  | easeF (p : EaseFrameParams)
  | flyF (p : FlyFrameParams)

/-- The stored `_onEaseEnd` callback, as the data it captured: `easeTo`
installs a finish that defers `_afterEase` through a timeout when
`delayEndEvents` is truthy; `flyTo` installs `_afterEase` directly. -/
inductive FinishSpec where
  | easeFinish (delayEndEvents : Option ℚ) (eventData : Option Nat)
  | flyFinish (eventData : Option Nat)
deriving DecidableEq, Repr

/-- The camera state: the owned transform, the four movement flags, and
the animation-session slots.  `easeEndTimeout` models a pending
`delayEndEvents` timeout (holding the event data of the deferred
`_afterEase`); `now` is the sampled external clock; `nextFrameId` and
`framesRequested` model the handles returned by and the number of calls to
the external `_requestRenderFrame` primitive. -/
structure Camera where
  transform : Transform
  (moving zooming rotating pitching : Bool)
  bearingSnap : ℚ
  onEaseFrame : Option FrameSpec
  onEaseEnd : Option FinishSpec
  easeFrameId : Option Nat
  easeEndTimeout : Option (Option Nat)
  easeStart : ℚ
  easeDuration : JSNum
  easeAnimate : Option Bool
  easeEasing : ℚ → ℚ
  now : ℚ
  nextFrameId : Nat
  framesRequested : Nat

/-- Embedding of `Camera._prepareEase`: sets the moving flag and fires the
start events, suppressing `movestart` when `noMoveStart` is truthy. -/
def prepareEase (ed : Option Nat) (noMoveStart : Bool) (c : Camera) :
    Camera × List CamEv :=
  ({ c with moving := true },
   (if noMoveStart then [] else [⟨.movestart, ed⟩]) ++
   (if c.zooming then [⟨.zoomstart, ed⟩] else []) ++
   (if c.rotating then [⟨.rotatestart, ed⟩] else []) ++
   (if c.pitching then [⟨.pitchstart, ed⟩] else []))

/-- Embedding of `Camera._fireMoveEvents`. -/
def fireMoveEvents (ed : Option Nat) (c : Camera) : List CamEv :=
  ⟨.move, ed⟩ ::
  ((if c.zooming then [⟨.zoom, ed⟩] else []) ++
   (if c.rotating then [⟨.rotate, ed⟩] else []) ++
   (if c.pitching then [⟨.pitch, ed⟩] else []))

/-- Embedding of `Camera._afterEase`: clears the flags and fires the end
events for the axes that were animating, then `moveend`. -/
def afterEase (ed : Option Nat) (c : Camera) : Camera × List CamEv :=
  ({ c with moving := false, zooming := false, rotating := false, pitching := false },
   (if c.zooming then [⟨.zoomend, ed⟩] else []) ++
   (if c.rotating then [⟨.rotateend, ed⟩] else []) ++
   (if c.pitching then [⟨.pitchend, ed⟩] else []) ++ [⟨.moveend, ed⟩])

/-- Run a stored finish callback: the `easeTo` finish defers `_afterEase`
through a timeout when `delayEndEvents` is truthy, the `flyTo` finish
calls `_afterEase` directly. -/
def runFinish : FinishSpec → Camera → Camera × List CamEv
  | .easeFinish dly ed, c =>
      if dly.getD 0 ≠ 0 then ({ c with easeEndTimeout := some ed }, [])
      else afterEase ed c
  | .flyFinish ed, c => afterEase ed c

/-- Embedding of `Camera.stop`, abstracted over how the captured finish
callback runs, so that the capture-then-clear-then-invoke ordering can be
analysed for every possible re-entrant callback: the scheduled frame is
cancelled and its slot cleared, then the finish callback is taken out of
its slot, the slot is cleared, and only then is the callback run. -/
def stopWith (run : FinishSpec → Camera → Camera × List CamEv) (c : Camera) :
    Camera × List CamEv :=
  let c := if c.easeFrameId.isSome then
             { c with easeFrameId := none, onEaseFrame := none } else c
  match c.onEaseEnd with
  | some f => run f { c with onEaseEnd := none }
  | none => (c, [])

/-- Embedding of `Camera.stop` with the finish callbacks the source
actually installs. -/
def stop (c : Camera) : Camera × List CamEv := stopWith runFinish c

/-- Run a stored per-frame callback at interpolation parameter `k`.  For
the `flyTo` frame, values handed to the external collaborator functions
pass through `jtoQ` (a modelling boundary never exercised by a claim). -/
def runFrame (math : ExtMath) (ops : TransformOps) :
    FrameSpec → ℚ → Camera → Camera × List CamEv
  | .easeF p, k, c =>
      let tr := c.transform
      let tr := if c.zooming then { tr with zoom := interpolate p.startZoom p.zoom k } else tr
      let tr := if c.rotating then { tr with bearing := interpolate p.startBearing p.bearing k } else tr
      let tr := if c.pitching then { tr with pitch := interpolate p.startPitch p.pitch k } else tr
      let tr :=
        match p.around, p.aroundPoint with
        | some a, some ap => setLoc ops tr a ap
        | _, _ =>
            let scale := ops.zoomScale tr (tr.zoom - p.startZoom)
            let base := if p.zoom > p.startZoom then min 2 p.finalScale
                        else max (1/2 : ℚ) p.finalScale
            let speedup := math.pow base (1 - k)
            let newCenter := ops.unproject tr (pmulS (padd p.fromPt (pmulS p.delta (k * speedup))) scale)
            let nc := if tr.renderWorldCopies then (wrapNum newCenter.1 (-180) 180, newCenter.2)
                      else newCenter
            setLoc ops tr nc p.pointAtOffset
      ({ c with transform := tr }, fireMoveEvents p.eventData c)
  | .flyF p, k, c =>
      let s := jmul (jnum k) p.pathS
      let scaleJ := jdiv (jnum 1) (p.w s)
      let tr := c.transform
      let tr := { tr with zoom := if k = 1 then p.zoom
                                  else p.startZoom + ops.scaleZoom tr (jtoQ scaleJ) }
      let tr := if c.rotating then { tr with bearing := interpolate p.startBearing p.bearing k } else tr
      let tr := if c.pitching then { tr with pitch := interpolate p.startPitch p.pitch k } else tr
      let newCenter := ops.unproject tr (pmulS (padd p.fromPt (pmulS p.delta (jtoQ (p.u s)))) (jtoQ scaleJ))
      let nc := if tr.renderWorldCopies then (wrapNum newCenter.1 (-180) 180, newCenter.2)
                else newCenter
      let tr := setLoc ops tr nc p.pointAtOffset
      ({ c with transform := tr }, fireMoveEvents p.eventData c)

/-- Embedding of `Camera._ease`: with `animate === false` or a zero
duration the frame runs once at `k = 1` and the finish runs synchronously;
otherwise the session is stored and one render frame is requested. -/
def ease (math : ExtMath) (ops : TransformOps) (frame : FrameSpec)
    (finish : FinishSpec) (animate : Option Bool) (duration : JSNum)
    (easing : ℚ → ℚ) (c : Camera) : Camera × List CamEv :=
  if animate = some false ∨ jseq duration (jnum 0) then
    let r1 := runFrame math ops frame 1 c
    let r2 := runFinish finish r1.1
    (r2.1, r1.2 ++ r2.2)
  else
    ({ c with easeStart := c.now, easeDuration := duration,
              easeAnimate := animate, easeEasing := easing,
              onEaseFrame := some frame, onEaseEnd := some finish,
              easeFrameId := some c.nextFrameId,
              nextFrameId := c.nextFrameId + 1,
              framesRequested := c.framesRequested + 1 }, [])

/-- Embedding of `Camera._renderFrameCallback`: sample the external clock,
run the stored frame at the eased time fraction, and either request the
next frame or stop.  The external scheduler drives this; no claim steps
it. -/
def renderFrameCallback (math : ExtMath) (ops : TransformOps) (c : Camera) :
    Camera × List CamEv :=
  match c.onEaseFrame with
  | none => (c, [])
  | some f =>
      let t := min ((c.now - c.easeStart) / jtoQ c.easeDuration) 1
      let r := runFrame math ops f (c.easeEasing t) c
      if t < 1 then
        ({ r.1 with easeFrameId := some r.1.nextFrameId,
                    nextFrameId := r.1.nextFrameId + 1,
                    framesRequested := r.1.framesRequested + 1 }, r.2)
      else
        let r2 := stop r.1
        (r2.1, r.2 ++ r2.2)

/-- Embedding of `Camera._normalizeBearing`: wrap the target bearing, then
move it by a full turn towards the current bearing when that is strictly
closer. -/
def normalizeBearing (bearing currentBearing : ℚ) : ℚ :=
  let b := wrapNum bearing (-180) 180
  let diff := |b - currentBearing|
  let b := if |b - 360 - currentBearing| < diff then b - 360 else b
  let b := if |b + 360 - currentBearing| < diff then b + 360 else b
  b

/-- Embedding of `Camera._normalizeCenter`: when rendering wrapped world
copies without a longitude-range constraint, extend the target longitude
across the antimeridian when that path is shorter. -/
def normalizeCenter (tr : Transform) (center : ℚ × ℚ) : ℚ × ℚ :=
  if !tr.renderWorldCopies || tr.lngRange then center
  else
    let delta := center.1 - tr.centerLng
    (center.1 + (if delta > 180 then -360 else if delta < -180 then 360 else 0),
     center.2)

/-- Embedding of `Camera.jumpTo`: stop any animation, update each
transform field that is present in the options and numerically different,
and fire `movestart`, `move`, the per-axis triples for the changed axes,
and `moveend`, synchronously.  `LngLat.convert` on a `[lng, lat]` pair is
the identity. -/
def jumpTo (o : CamOptions) (ed : Option Nat) (c : Camera) : Camera × List CamEv :=
  let s := stop c
  let c := s.1
  let tr := c.transform
  let zr : Bool × Transform :=
    match o.zoom with
    | some z => if tr.zoom ≠ z then (true, { tr with zoom := z }) else (false, tr)
    | none => (false, tr)
  let zoomChanged := zr.1
  let tr := zr.2
  let tr := match o.center with
            | some ll => { tr with centerLng := ll.1, centerLat := ll.2 }
            | none => tr
  let br : Bool × Transform :=
    match o.bearing with
    | some b => if tr.bearing ≠ b then (true, { tr with bearing := b }) else (false, tr)
    | none => (false, tr)
  let bearingChanged := br.1
  let tr := br.2
  let pr : Bool × Transform :=
    match o.pitch with
    | some p => if tr.pitch ≠ p then (true, { tr with pitch := p }) else (false, tr)
    | none => (false, tr)
  let pitchChanged := pr.1
  let tr := pr.2
  ({ c with transform := tr },
   s.2 ++ [⟨.movestart, ed⟩, ⟨.move, ed⟩] ++
   (if zoomChanged then [⟨.zoomstart, ed⟩, ⟨.zoom, ed⟩, ⟨.zoomend, ed⟩] else []) ++
   (if bearingChanged then [⟨.rotatestart, ed⟩, ⟨.rotate, ed⟩, ⟨.rotateend, ed⟩] else []) ++
   (if pitchChanged then [⟨.pitchstart, ed⟩, ⟨.pitch, ed⟩, ⟨.pitchend, ed⟩] else []) ++
   [⟨.moveend, ed⟩])

/-- The defaults `easeTo` merges under its options. -/
def easeDefaults (o : CamOptions) : CamOptions :=
  { o with offset := some (o.offset.getD (0, 0)),
           duration := some (o.duration.getD 500),
           easing := some (o.easing.getD defaultEasing) }

/-- Embedding of `Camera.easeTo`: stop any animation, resolve the targets
(bearing through `_normalizeBearing`, centre through the offset point and
`_normalizeCenter`), set the per-axis animation flags by inequality with
the current values, fire the start events, clear any pending
`delayEndEvents` timeout, and drive the captured frame and finish through
`_ease`. -/
def easeTo (math : ExtMath) (ops : TransformOps) (o : CamOptions)
    (ed : Option Nat) (c : Camera) : Camera × List CamEv :=
  let s := stop c
  let c := s.1
  let o := easeDefaults o
  let o := if o.animate = some false then { o with duration := some 0 } else o
  let tr := c.transform
  let startZoom := tr.zoom
  let startBearing := tr.bearing
  let startPitch := tr.pitch
  let zoom := o.zoom.getD startZoom
  let bearing := match o.bearing with
                 | some b => normalizeBearing b startBearing
                 | none => startBearing
  let pitch := o.pitch.getD startPitch
  let pointAtOffset := padd (ops.centerPoint tr) (o.offset.getD (0, 0))
  let locationAtOffset := ops.pointLocation tr pointAtOffset
  let center := normalizeCenter tr (o.center.getD locationAtOffset)
  let fromPt := ops.project tr locationAtOffset
  let delta := psub (ops.project tr center) fromPt
  let finalScale := ops.zoomScale tr (zoom - startZoom)
  let aroundPoint := o.around.map (fun a => ops.locationPoint tr a)
  let c := { c with zooming := decide (zoom ≠ startZoom),
                    rotating := decide (startBearing ≠ bearing),
                    pitching := decide (pitch ≠ startPitch) }
  let pe := prepareEase ed (o.noMoveStart.getD false) c
  let c := { pe.1 with easeEndTimeout := none }
  let frame := FrameSpec.easeF
    ⟨startZoom, zoom, startBearing, bearing, startPitch, pitch, o.around,
     aroundPoint, pointAtOffset, fromPt, delta, finalScale, ed⟩
  let fin := FinishSpec.easeFinish o.delayEndEvents ed
  let r := ease math ops frame fin o.animate (jnum (o.duration.getD 500))
             (o.easing.getD defaultEasing) c
  (r.1, s.2 ++ pe.2 ++ r.2)

/-! ## The flight path of `flyTo` -/

/-- The local `cosh` of `flyTo`, written with `Math.exp`. -/
def jsCosh (math : ExtMath) (n : JSNum) : JSNum :=
  jdiv (jadd (math.exp n) (math.exp (jneg n))) (jnum 2)

/-- The local `sinh` of `flyTo`, written with `Math.exp`. -/
def jsSinh (math : ExtMath) (n : JSNum) : JSNum :=
  jdiv (jsub (math.exp n) (math.exp (jneg n))) (jnum 2)

/-- The local `tanh` of `flyTo`. -/
def jsTanh (math : ExtMath) (n : JSNum) : JSNum :=
  jdiv (jsSinh math n) (jsCosh math n)

/-- The local `r(i)` of `flyTo`: the zoom-out factor at one end of the
animation (`i = true` is the descent), with the exact operator association
of the source expression. -/
def flyR (math : ExtMath) (rho2 w0J w1 u1 : JSNum) (i : Bool) : JSNum :=
  let b := jdiv
    (jadd (jsub (jmul w1 w1) (jmul w0J w0J))
          (jmul (jmul (jmul (jmul (if i then jnum (-1) else jnum 1) rho2) rho2) u1) u1))
    (jmul (jmul (jmul (jnum 2) (if i then w1 else w0J)) rho2) u1)
  math.log (jsub (math.sqrt (jadd (jmul b b) (jnum 1))) b)

/-- The quantities `flyTo` derives before and at its degeneracy branch:
the resolved targets, the spans `w0`/`w1`, the planar distance `u1`, the
curve parameter `rho`, the initially computed path length `S0`, the
degeneracy flags, and the path functions `w`/`u` and length `S` after the
branch has (possibly) replaced them. -/
structure FlyParams where
  (startZoom zoom startBearing bearing startPitch pitch scale : ℚ)
  pointAtOffset : ℚ × ℚ
  fromPt : ℚ × ℚ
  delta : ℚ × ℚ
  w0 : ℚ
  (w1 u1 rho rho2 r0 s0 : JSNum)
  degenerate : Bool
  delegate : Bool
  pathS : JSNum
  w : JSNum → JSNum
  u : JSNum → JSNum

/-- The derivation of the flight-path quantities, following
`Camera.flyTo` (src/ui/camera.js) up to and including its degeneracy
branch.  `delegate` is true exactly when the source returns early through
`easeTo` (degenerate path with nearly equal spans); on a degenerate path
with distinct spans `u` becomes the constant zero and `w` the synthesized
exponential. -/
def flyParams (math : ExtMath) (ops : TransformOps) (o : CamOptions)
    (tr : Transform) : FlyParams :=
  let startZoom := tr.zoom
  let startBearing := tr.bearing
  let startPitch := tr.pitch
  let zoom := match o.zoom with
              | some z => clampNum z tr.minZoom tr.maxZoom
              | none => startZoom
  let bearing := match o.bearing with
                 | some b => normalizeBearing b startBearing
                 | none => startBearing
  let pitch := o.pitch.getD startPitch
  let scale := ops.zoomScale tr (zoom - startZoom)
  let pointAtOffset := padd (ops.centerPoint tr) (o.offset.getD (0, 0))
  let locationAtOffset := ops.pointLocation tr pointAtOffset
  let center := normalizeCenter tr (o.center.getD locationAtOffset)
  let fromPt := ops.project tr locationAtOffset
  let delta := psub (ops.project tr center) fromPt
  let w0 := max tr.width tr.height
  let w1 := jdiv (jnum w0) (jnum scale)
  let u1 := math.sqrt (jnum (delta.1 * delta.1 + delta.2 * delta.2))
  let rho := match o.minZoom with
             | some mz =>
                 let minZoom := clampNum (min (min mz startZoom) zoom) tr.minZoom tr.maxZoom
                 let wMax := jdiv (jnum w0) (jnum (ops.zoomScale tr (minZoom - startZoom)))
                 math.sqrt (jmul (jdiv wMax u1) (jnum 2))
             | none => jnum (o.curve.getD (71/50))
  let rho2 := jmul rho rho
  let r0 := flyR math rho2 (jnum w0) w1 u1 false
  let w : JSNum → JSNum := fun s =>
    jdiv (jsCosh math r0) (jsCosh math (jadd r0 (jmul rho s)))
  let u : JSNum → JSNum := fun s =>
    jdiv (jmul (jnum w0)
               (jdiv (jsub (jmul (jsCosh math r0) (jsTanh math (jadd r0 (jmul rho s))))
                           (jsSinh math r0))
                     rho2))
         u1
  let s0 := jdiv (jsub (flyR math rho2 (jnum w0) w1 u1 true) r0) rho
  let degenerate := jlt (jabs u1) (jnum (1/1000000)) || !s0.isFinite
  let delegate := degenerate && jlt (jabs (jsub (jnum w0) w1)) (jnum (1/1000000))
  let k : ℚ := if jlt w1 (jnum w0) then -1 else 1
  let pathS := if degenerate then jdiv (jabs (math.log (jdiv w1 (jnum w0)))) rho else s0
  let wF := if degenerate then (fun s => math.exp (jmul (jmul (jnum k) rho) s)) else w
  let uF := if degenerate then (fun _ => jnum 0) else u
  ⟨startZoom, zoom, startBearing, bearing, startPitch, pitch, scale,
   pointAtOffset, fromPt, delta, w0, w1, u1, rho, rho2, r0, s0,
   degenerate, delegate, pathS, wF, uF⟩

/-- The defaults `flyTo` merges under its options. -/
def flyDefaults (o : CamOptions) : CamOptions :=
  { o with offset := some (o.offset.getD (0, 0)),
           speed := some (o.speed.getD (6/5)),
           curve := some (o.curve.getD (71/50)),
           easing := some (o.easing.getD defaultEasing) }

/-- Embedding of `Camera.flyTo`: stop any animation, derive the
flight-path quantities, delegate wholly to `easeTo` on a degenerate path
with nearly equal spans, otherwise compute the duration from the path
length and the speed options (collapsing to zero past `maxDuration`), fire
the start events, and drive the flight frame through `_ease`. -/
def flyTo (math : ExtMath) (ops : TransformOps) (o : CamOptions)
    (ed : Option Nat) (c : Camera) : Camera × List CamEv :=
  let s := stop c
  let c := s.1
  let o := flyDefaults o
  let p := flyParams math ops o c.transform
  if p.delegate then
    let r := easeTo math ops o ed c
    (r.1, s.2 ++ r.2)
  else
    let duration : JSNum :=
      match o.duration with
      | some d => jnum d
      | none =>
          let v : JSNum := match o.screenSpeed with
                           | some ss => jdiv (jnum ss) p.rho
                           | none => jnum (o.speed.getD (6/5))
          jdiv (jmul (jnum 1000) p.pathS) v
    let duration := match o.maxDuration with
                    | some m => if m ≠ 0 ∧ jlt (jnum m) duration then jnum 0 else duration
                    | none => duration
    let c := { c with zooming := true,
                      rotating := decide (p.startBearing ≠ p.bearing),
                      pitching := decide (p.pitch ≠ p.startPitch) }
    let pe := prepareEase ed false c
    let frame := FrameSpec.flyF
      ⟨p.startZoom, p.zoom, p.startBearing, p.bearing, p.startPitch, p.pitch,
       p.pointAtOffset, p.fromPt, p.delta, p.pathS, p.w, p.u, ed⟩
    let r := ease math ops frame (FinishSpec.flyFinish ed) o.animate duration
               (o.easing.getD defaultEasing) pe.1
    (r.1, s.2 ++ pe.2 ++ r.2)

/-! ## `cameraForBounds` and `fitBounds` -/

/-- Geographic bounds (`LngLatBounds`), by their four edges. -/
structure Bounds where
  west : ℚ
  south : ℚ
  east : ℚ
  north : ℚ
deriving DecidableEq, Repr

/-- The north-west corner of the bounds (`getNorthWest`). -/
def boundsNorthWest (b : Bounds) : ℚ × ℚ := (b.west, b.north)

/-- The south-east corner of the bounds (`getSouthEast`). -/
def boundsSouthEast (b : Bounds) : ℚ × ℚ := (b.east, b.south)

/-- Insert a string into a sorted list (ascending). -/
def insertStr (s : String) : List String → List String
  | [] => [s]
  | t :: ts => if compare s t = .lt then s :: t :: ts else t :: insertStr s ts

/-- Sort a list of strings ascending, as the key-comparator sort of
`cameraForBounds` does. -/
def sortStrings : List String → List String
  | [] => []
  | s :: ss => insertStr s (sortStrings ss)

/-- The default (all-zero) padding object, with the key order of the
source literal. -/
def defaultPadding : PaddingInput :=
  .obj [("top", 0), ("bottom", 0), ("right", 0), ("left", 0)]

/-- Key list of a padding value; a plain number is first expanded to the
four-key object of the source. -/
def paddingKeys : PaddingInput → List String
  | .num _ => ["top", "bottom", "right", "left"]
  | .obj fs => fs.map Prod.fst

/-- Field access on a padding value. -/
def paddingGet (p : PaddingInput) (k : String) : ℚ :=
  match p with
  | .num q => q
  | .obj fs => (List.lookup k fs).getD 0

/-- The key-shape check of `cameraForBounds`: the sorted key list must be
exactly `bottom, left, right, top`. -/
def cfbPaddingOk (p : PaddingInput) : Bool :=
  sortStrings (paddingKeys p) == ["bottom", "left", "right", "top"]

/-- The resolved padding option of `cameraForBounds`. -/
def cfbPadding (o : CamOptions) : PaddingInput := o.padding.getD defaultPadding

/-- The offset of `cameraForBounds` after the centre-shifting half of the
padding imbalance has been added. -/
def cfbOffset (o : CamOptions) : ℚ × ℚ :=
  let p := cfbPadding o
  padd (o.offset.getD (0, 0))
       ((paddingGet p "left" - paddingGet p "right") / 2,
        (paddingGet p "top" - paddingGet p "bottom") / 2)

/-- The projected size of the bounds at the current transform. -/
def cfbSize (ops : TransformOps) (tr : Transform) (b : Bounds) : ℚ × ℚ :=
  psub (ops.project tr (boundsSouthEast b)) (ops.project tr (boundsNorthWest b))

/-- The horizontal scale factor required to fit the bounds. -/
def cfbScaleX (ops : TransformOps) (tr : Transform) (b : Bounds) (o : CamOptions) : ℚ :=
  let p := cfbPadding o
  let lateralPadding := min (paddingGet p "right") (paddingGet p "left")
  (tr.width - lateralPadding * 2 - |(cfbOffset o).1| * 2) / (cfbSize ops tr b).1

/-- The vertical scale factor required to fit the bounds. -/
def cfbScaleY (ops : TransformOps) (tr : Transform) (b : Bounds) (o : CamOptions) : ℚ :=
  let p := cfbPadding o
  let verticalPadding := min (paddingGet p "top") (paddingGet p "bottom")
  (tr.height - verticalPadding * 2 - |(cfbOffset o).2| * 2) / (cfbSize ops tr b).2

/-- The warning issued for a malformed padding object. -/
def paddingWarning : String :=
  "options.padding must be a positive number, or an Object with keys 'bottom', 'left', 'right', 'top'"

/-- The warning issued when the bounds cannot fit the canvas. -/
def fitWarning : String :=
  "Map cannot fit within canvas with the given bounds, padding, and/or offset."

/-- Embedding of `Camera.cameraForBounds`: a pure computation returning
the fitted camera options, or nothing together with a logged warning when
the padding keys are malformed or a required scale factor is negative.
The second component is the list of warnings logged. -/
def cameraForBounds (ops : TransformOps) (tr : Transform) (b : Bounds)
    (o : CamOptions) : Option CamOptions × List String :=
  let padding := cfbPadding o
  let maxZoom := o.maxZoom.getD tr.maxZoom
  if !cfbPaddingOk padding then (none, [paddingWarning])
  else
    let offset := cfbOffset o
    let nw := ops.project tr (boundsNorthWest b)
    let se := ops.project tr (boundsSouthEast b)
    let scaleX := cfbScaleX ops tr b o
    let scaleY := cfbScaleY ops tr b o
    if scaleY < 0 ∨ scaleX < 0 then (none, [fitWarning])
    else
      (some { o with padding := some padding, offset := some offset,
                     maxZoom := some maxZoom,
                     center := some (ops.unproject tr (pmulS (padd nw se) (1/2))),
                     zoom := some (min (ops.scaleZoom tr (tr.scale * min scaleX scaleY)) maxZoom),
                     bearing := some 0 }, [])

/-- The `extend(calculatedOptions, options)` step of `fitBounds`: fields
present in the caller options override the calculated ones. -/
def optionsMerge (base over : CamOptions) : CamOptions :=
  ⟨over.center <|> base.center, over.zoom <|> base.zoom,
   over.bearing <|> base.bearing, over.pitch <|> base.pitch,
   over.around <|> base.around, over.offset <|> base.offset,
   over.duration <|> base.duration, over.easing <|> base.easing,
   over.animate <|> base.animate, over.noMoveStart <|> base.noMoveStart,
   over.delayEndEvents <|> base.delayEndEvents, over.linear <|> base.linear,
   over.speed <|> base.speed, over.screenSpeed <|> base.screenSpeed,
   over.curve <|> base.curve, over.minZoom <|> base.minZoom,
   over.maxDuration <|> base.maxDuration, over.padding <|> base.padding,
   over.maxZoom <|> base.maxZoom⟩

/-- Embedding of `Camera.fitBounds`: delegate to `cameraForBounds`; on
failure return unchanged with no events, on success route to `easeTo` or
`flyTo` by the `linear` option. -/
def fitBounds (math : ExtMath) (ops : TransformOps) (c : Camera) (b : Bounds)
    (o : CamOptions) (ed : Option Nat) : Camera × List CamEv :=
  match (cameraForBounds ops c.transform b o).1 with
  | none => (c, [])
  | some co =>
      let o2 := optionsMerge co o
      if o2.linear.getD false then easeTo math ops o2 ed c
      else flyTo math ops o2 ed c

/-! ## Getters -/

/-- Embedding of `Camera.getCenter`. -/
def getCenter (c : Camera) : ℚ × ℚ := (c.transform.centerLng, c.transform.centerLat)

/-- Embedding of `Camera.getZoom`. -/
def getZoom (c : Camera) : ℚ := c.transform.zoom

/-- Embedding of `Camera.getBearing`. -/
def getBearing (c : Camera) : ℚ := c.transform.bearing

/-- Embedding of `Camera.getPitch`. -/
def getPitch (c : Camera) : ℚ := c.transform.pitch

/-- Embedding of `Camera.isEasing`. -/
def isEasing (c : Camera) : Bool := c.easeFrameId.isSome

/-! ## Concrete instances used by the witnesses -/

/-- A concrete instantiation of the external `Math` collaborator. -/
def math0 : ExtMath :=
  { exp := fun x => x, log := fun x => x, sqrt := fun x => x,
    pow := fun a _ => a }

/-- A concrete instantiation of the external `Transform` collaborator:
projection is the identity on points, the offset point of the centre is
the origin, and `zoomScale` is affine. -/
def ops0 : TransformOps :=
  { project := fun _ p => p,
    unproject := fun _ p => p,
    pointLocation := fun tr _ => (tr.centerLng, tr.centerLat),
    locationPoint := fun _ _ => (0, 0),
    setLocationAtPoint := fun _ geo _ => geo,
    zoomScale := fun _ d => 1 + d,
    scaleZoom := fun _ s => s - 1,
    centerPoint := fun _ => (0, 0) }

/-- A concrete instantiation of the `Transform` collaborator whose
projection flips the vertical axis, as a map projection does (north has
the smaller screen coordinate). -/
def ops1 : TransformOps := { ops0 with project := fun _ p => (p.1, -p.2) }

/-- A concrete transform state. -/
def tr0 : Transform :=
  { centerLng := 0, centerLat := 0, zoom := 5, bearing := 0, pitch := 0,
    minZoom := 0, maxZoom := 22, width := 100, height := 100, scale := 1,
    renderWorldCopies := false, lngRange := false }

/-- A concrete idle camera. -/
def cam0 : Camera :=
  { transform := tr0, moving := false, zooming := false, rotating := false,
    pitching := false, bearingSnap := 7, onEaseFrame := none,
    onEaseEnd := none, easeFrameId := none, easeEndTimeout := none,
    easeStart := 0, easeDuration := jnum 0, easeAnimate := none,
    easeEasing := defaultEasing, now := 0, nextFrameId := 1,
    framesRequested := 0 }

section Scratch
attribute [local semireducible] Rat.add Rat.mul Rat.inv Rat.sub Rat.neg Rat.div

example : (easeTo math0 ops0 { CamOptions.empty with zoom := some 7, duration := some 0 } none cam0).2 =
    [⟨.movestart, none⟩, ⟨.zoomstart, none⟩, ⟨.move, none⟩, ⟨.zoom, none⟩,
     ⟨.zoomend, none⟩, ⟨.moveend, none⟩] := by decide

example : getZoom (easeTo math0 ops0 { CamOptions.empty with zoom := some 7, duration := some 0 } none cam0).1 = 7 := by decide

example : (easeTo math0 ops0 { CamOptions.empty with zoom := some 7, duration := some 100 } none cam0).1.onEaseEnd =
    some (.easeFinish none none) := by decide

example :
    (easeTo math0 ops0 CamOptions.empty none
      (easeTo math0 ops0 { CamOptions.empty with zoom := some 7, duration := some 100 } none cam0).1).2 =
    [⟨.zoomend, none⟩, ⟨.moveend, none⟩, ⟨.movestart, none⟩] := by decide

example :
    (easeTo math0 ops0 CamOptions.empty none
      (easeTo math0 ops0 { CamOptions.empty with zoom := some 7, duration := some 100, delayEndEvents := some 1 } none cam0).1).2 =
    [⟨.movestart, none⟩] := by decide

example : normalizeBearing 170 (-170) = -190 := by decide

example : (flyTo math0 ops0 { CamOptions.empty with center := some (0,0), zoom := some 5 } none cam0).2 =
    (easeTo math0 ops0 (flyDefaults { CamOptions.empty with center := some (0,0), zoom := some 5 }) none cam0).2 := by decide

example :
    (cameraForBounds ops1 tr0 ⟨-1, -1, 1, 1⟩
      { CamOptions.empty with padding := some (.obj [("top", 1000000), ("bottom", 0), ("left", 0), ("right", 0)]) }).1.isSome = false := by decide

example :
    (cameraForBounds ops1 tr0 ⟨-10, -10, 10, 10⟩ CamOptions.empty).1.isSome = true := by decide

end Scratch

/-! ## Basic facts about `stop` -/

/-- Running a finish callback never touches the transform. -/
lemma runFinish_transform (f : FinishSpec) (c : Camera) :
    (runFinish f c).1.transform = c.transform := by
  cases f with
  | easeFinish dly ed => by_cases h : dly.getD 0 ≠ 0 <;> simp [runFinish, afterEase, h]
  | flyFinish ed => simp [runFinish, afterEase]

/-- Running a finish callback keeps the frame-request counter. -/
lemma runFinish_framesRequested (f : FinishSpec) (c : Camera) :
    (runFinish f c).1.framesRequested = c.framesRequested := by
  cases f with
  | easeFinish dly ed => by_cases h : dly.getD 0 ≠ 0 <;> simp [runFinish, afterEase, h]
  | flyFinish ed => simp [runFinish, afterEase]

/-- Running a finish callback keeps the frame handle slot. -/
lemma runFinish_easeFrameId (f : FinishSpec) (c : Camera) :
    (runFinish f c).1.easeFrameId = c.easeFrameId := by
  cases f with
  | easeFinish dly ed => by_cases h : dly.getD 0 ≠ 0 <;> simp [runFinish, afterEase, h]
  | flyFinish ed => simp [runFinish, afterEase]

/-- Running a finish callback does not install a finish callback. -/
lemma runFinish_onEaseEnd (f : FinishSpec) (c : Camera) :
    (runFinish f c).1.onEaseEnd = c.onEaseEnd := by
  cases f with
  | easeFinish dly ed => by_cases h : dly.getD 0 ≠ 0 <;> simp [runFinish, afterEase, h]
  | flyFinish ed => simp [runFinish, afterEase]

/-- `stop` never touches the transform. -/
lemma stop_transform (c : Camera) : (stop c).1.transform = c.transform := by
  unfold stop stopWith
  cases hF : c.easeFrameId <;> cases hE : c.onEaseEnd <;>
    simp [hF, hE, runFinish_transform]

/-- `stop` requests no render frame. -/
lemma stop_framesRequested (c : Camera) :
    (stop c).1.framesRequested = c.framesRequested := by
  unfold stop stopWith
  cases hF : c.easeFrameId <;> cases hE : c.onEaseEnd <;>
    simp [hF, hE, runFinish_framesRequested]

/-- After `stop` no frame is scheduled. -/
lemma stop_easeFrameId (c : Camera) : (stop c).1.easeFrameId = none := by
  unfold stop stopWith
  cases hF : c.easeFrameId <;> cases hE : c.onEaseEnd <;>
    simp [hF, hE, runFinish_easeFrameId]

/-- After `stop` no finish callback is pending. -/
lemma stop_onEaseEnd (c : Camera) : (stop c).1.onEaseEnd = none := by
  unfold stop stopWith
  cases hF : c.easeFrameId <;> cases hE : c.onEaseEnd <;>
    simp [hF, hE, runFinish_onEaseEnd]

/-- On an idle camera `stop` is the identity with an empty trace. -/
lemma stop_of_idle (c : Camera) (h1 : c.easeFrameId = none)
    (h2 : c.onEaseEnd = none) : stop c = (c, []) := by
  simp [stop, stopWith, h1, h2]

/-- `stop` of a stopped camera is the identity with an empty trace. -/
lemma stop_stop (c : Camera) : stop (stop c).1 = ((stop c).1, []) :=
  stop_of_idle _ (stop_easeFrameId c) (stop_onEaseEnd c)

/-! ## Claim C6: bearing shortest-path normalisation -/

/-- The wrap of the missing util module lands in `[-180, 180)`. -/
lemma wrapNum_range (b : ℚ) :
    -180 ≤ wrapNum b (-180) 180 ∧ wrapNum b (-180) 180 < 180 := by
  have hfl := Int.floor_le ((b - -180) / 360)
  have hfu := Int.lt_floor_add_one ((b - -180) / 360)
  simp only [wrapNum]
  constructor <;> linarith

section RatEval1
attribute [local semireducible] Rat.add Rat.mul Rat.inv Rat.sub Rat.neg Rat.div

/-- Evaluation of `_normalizeBearing` at the bearing pair of the claim. -/
lemma normalizeBearing_concrete : normalizeBearing 170 (-170) = -190 := by decide

/-- Evaluation of the wrap at the target bearing of the claim. -/
lemma wrap170 : (170 : ℚ) = wrapNum 170 (-180) 180 := by decide

end RatEval1

/-- C6: `_normalizeBearing(b, c)` first wraps `b` into `[-180, 180)` and
then returns the representative among the wrapped value and its two
full-turn shifts with minimal absolute difference to the current bearing
`c`; in particular `_normalizeBearing(170, -170)` returns `-190`. -/
theorem normalizeBearing_contract (b c : ℚ) :
    (-180 ≤ wrapNum b (-180) 180 ∧ wrapNum b (-180) 180 < 180) ∧
    (normalizeBearing b c = wrapNum b (-180) 180 ∨
     normalizeBearing b c = wrapNum b (-180) 180 - 360 ∨
     normalizeBearing b c = wrapNum b (-180) 180 + 360) ∧
    (∀ x : ℚ,
      (x = wrapNum b (-180) 180 ∨ x = wrapNum b (-180) 180 - 360 ∨
       x = wrapNum b (-180) 180 + 360) →
      |normalizeBearing b c - c| ≤ |x - c|) ∧
    normalizeBearing 170 (-170) = -190 := by
  refine ⟨wrapNum_range b, ?_, ?_, normalizeBearing_concrete⟩
  · simp only [normalizeBearing]
    set w := wrapNum b (-180) 180 with hw
    split_ifs with h1 h2 h3
    · exact Or.inl (by ring)
    · exact Or.inr (Or.inl rfl)
    · exact Or.inr (Or.inr rfl)
    · exact Or.inl rfl
  · intro x hx
    simp only [normalizeBearing]
    set w := wrapNum b (-180) 180 with hw
    rcases hx with rfl | rfl | rfl <;>
      split_ifs with h1 h2 h3 <;>
      rcases abs_cases (w - 360 - c) with ⟨ha1, ha2⟩ | ⟨ha1, ha2⟩ <;>
      rcases abs_cases (w - c) with ⟨hb1, hb2⟩ | ⟨hb1, hb2⟩ <;>
      rcases abs_cases (w + 360 - c) with ⟨hc1, hc2⟩ | ⟨hc1, hc2⟩ <;>
      rcases abs_cases (w - 360 + 360 - c) with ⟨hd1, hd2⟩ | ⟨hd1, hd2⟩ <;>
      simp only [ha1, hb1, hc1, hd1] at * <;> try linarith

/-- Witness for C6 at `b = 170`, `c = -170`: the minimality inequality is
exercised against the plain wrapped candidate `170`. -/
theorem normalizeBearing_contract_witness :
    |normalizeBearing 170 (-170) - (-170)| ≤ |170 - (-170 : ℚ)| :=
  (normalizeBearing_contract 170 (-170)).2.2.1 170 (Or.inl wrap170)

/-! ## Claim C2: `stop` is idle-safe and capture-then-clear-then-invoke -/

/-- C2: on an idle camera (no scheduled frame, no pending completion
callback) `stop` is a no-op firing no events; when a completion callback
is pending, `stop` runs it on a state in which the callback slot has
already been cleared (and the scheduled frame cancelled), so for every
possible behaviour `run` of the callback, whatever new callback `run`
installs is exactly what remains installed afterwards; and a pending
`easeTo` completion without `delayEndEvents` fires exactly one `moveend`. -/
theorem stop_contract (run : FinishSpec → Camera → Camera × List CamEv)
    (c : Camera) (f : FinishSpec) (d : Option ℚ) (ed : Option Nat) :
    (c.easeFrameId = none → c.onEaseEnd = none → stopWith run c = (c, [])) ∧
    (c.onEaseEnd = some f →
      stopWith run c =
        run f { c with
                easeFrameId := none,
                onEaseFrame := if c.easeFrameId.isSome then none else c.onEaseFrame,
                onEaseEnd := none }) ∧
    (c.onEaseEnd = some (.easeFinish d ed) → d.getD 0 = 0 →
      ((stop c).2.countP (fun e => e.name == EvName.moveend) = 1 ∧
       (stop c).1.onEaseEnd = none)) := by
  refine ⟨?_, ?_, ?_⟩
  · intro h1 h2
    simp [stopWith, h1, h2]
  · intro h
    cases hF : c.easeFrameId <;> simp [stopWith, hF, h]
  · intro h hd
    have h2 := stop_onEaseEnd c
    refine ⟨?_, h2⟩
    have hd2 : ¬ d.getD 0 ≠ 0 := by simp [hd]
    cases hF : c.easeFrameId <;>
      simp [stop, stopWith, hF, h, runFinish, hd2, afterEase] <;>
      cases c.zooming <;> cases c.rotating <;> cases c.pitching <;> simp

/-- Witness for C2: `stop` on the concrete idle camera is a no-op, and on
a camera with a pending `easeTo` completion callback it fires exactly one
`moveend`. -/
theorem stop_contract_witness :
    (stopWith runFinish cam0 = (cam0, [])) ∧
    ((stop (easeTo math0 ops0 { CamOptions.empty with zoom := some 7, duration := some 100 } none cam0).1).2.countP
        (fun e => e.name == EvName.moveend) = 1) :=
  ⟨(stop_contract runFinish cam0 (.flyFinish none) none none).1 rfl rfl,
   ((stop_contract runFinish
       (easeTo math0 ops0 { CamOptions.empty with zoom := some 7, duration := some 100 } none cam0).1
       (.easeFinish none none) none none).2.2 (by decide) rfl).1⟩

/-! ## Claims C4 and C9: `jumpTo` -/

/-- The transform fields after `jumpTo` are the requested values, with
absent options keeping the current value. -/
lemma jumpTo_fields (o : CamOptions) (ed : Option Nat) (c : Camera) :
    (jumpTo o ed c).1.transform.zoom = o.zoom.getD c.transform.zoom ∧
    (jumpTo o ed c).1.transform.bearing = o.bearing.getD c.transform.bearing ∧
    (jumpTo o ed c).1.transform.pitch = o.pitch.getD c.transform.pitch ∧
    (jumpTo o ed c).1.transform.centerLng = (o.center.getD (getCenter (stop c).1)).1 ∧
    (jumpTo o ed c).1.transform.centerLat = (o.center.getD (getCenter (stop c).1)).2 := by
  have htr := stop_transform c
  cases hz : o.zoom <;> cases hb : o.bearing <;> cases hp : o.pitch <;>
    cases hc : o.center <;>
    simp [jumpTo, hz, hb, hp, hc, htr, getCenter] <;>
    split_ifs <;> simp_all

/-- C4: `jumpTo` fires `movestart`, `move`, `moveend` in that order (after
the events of the implicit `stop`), with the `zoomstart/zoom/zoomend`,
`rotatestart/rotate/rotateend` and `pitchstart/pitch/pitchend` triples
nested between `move` and `moveend` exactly for the axes that are present
in the options and numerically different from the current transform value;
each transform field becomes the requested value (so an equal requested
zoom leaves it unchanged and fires no zoom triple); and no render frame is
ever requested and none is scheduled afterwards. -/
theorem jumpTo_contract (o : CamOptions) (ed : Option Nat) (c : Camera) :
    (jumpTo o ed c).2 =
      (stop c).2 ++ [⟨.movestart, ed⟩, ⟨.move, ed⟩] ++
      (if (match o.zoom with
           | some z => decide (c.transform.zoom ≠ z)
           | none => false) then
         [⟨.zoomstart, ed⟩, ⟨.zoom, ed⟩, ⟨.zoomend, ed⟩] else []) ++
      (if (match o.bearing with
           | some b => decide (c.transform.bearing ≠ b)
           | none => false) then
         [⟨.rotatestart, ed⟩, ⟨.rotate, ed⟩, ⟨.rotateend, ed⟩] else []) ++
      (if (match o.pitch with
           | some p => decide (c.transform.pitch ≠ p)
           | none => false) then
         [⟨.pitchstart, ed⟩, ⟨.pitch, ed⟩, ⟨.pitchend, ed⟩] else []) ++
      [⟨.moveend, ed⟩] ∧
    (jumpTo o ed c).1.transform.zoom = o.zoom.getD c.transform.zoom ∧
    (jumpTo o ed c).1.transform.bearing = o.bearing.getD c.transform.bearing ∧
    (jumpTo o ed c).1.transform.pitch = o.pitch.getD c.transform.pitch ∧
    (jumpTo o ed c).1.transform.centerLng = (o.center.getD (getCenter (stop c).1)).1 ∧
    (jumpTo o ed c).1.transform.centerLat = (o.center.getD (getCenter (stop c).1)).2 ∧
    (jumpTo o ed c).1.framesRequested = c.framesRequested ∧
    (jumpTo o ed c).1.easeFrameId = none := by
  have hfields := jumpTo_fields o ed c
  have htr := stop_transform c
  have hfr := stop_framesRequested c
  have hid := stop_easeFrameId c
  refine ⟨?_, hfields.1, hfields.2.1, hfields.2.2.1, hfields.2.2.2.1,
          hfields.2.2.2.2, ?_, ?_⟩ <;>
    cases hz : o.zoom <;> cases hb : o.bearing <;> cases hp : o.pitch <;>
      cases hc : o.center <;>
      simp [jumpTo, hz, hb, hp, hc, htr, hfr, hid] <;>
      split_ifs <;> simp_all

/-- C9: after `jumpTo`, the plain getters read back exactly the values
that were set, with no interpolation applied (given that the external
transform stores assigned field values, as the embedding does). -/
theorem jumpTo_roundtrip (o : CamOptions) (ed : Option Nat) (c : Camera) :
    (∀ z, o.zoom = some z → getZoom (jumpTo o ed c).1 = z) ∧
    (∀ ll, o.center = some ll → getCenter (jumpTo o ed c).1 = ll) ∧
    (∀ b, o.bearing = some b → getBearing (jumpTo o ed c).1 = b) ∧
    (∀ p, o.pitch = some p → getPitch (jumpTo o ed c).1 = p) := by
  have hfields := jumpTo_fields o ed c
  refine ⟨?_, ?_, ?_, ?_⟩ <;> intro v hv <;>
    simp_all [getZoom, getBearing, getPitch, getCenter, Prod.ext_iff]

/-- A full option bag setting all four axes, used by the round-trip
witness. -/
def optsAll : CamOptions :=
  { CamOptions.empty with zoom := some 9, center := some ((3 : ℚ), (4 : ℚ)),
                          bearing := some 17, pitch := some 20 }

/-- Witness for C9: a `jumpTo` setting all four axes on the concrete
camera reads back exactly the set values. -/
theorem jumpTo_roundtrip_witness :
    getZoom (jumpTo optsAll none cam0).1 = 9 ∧
    getCenter (jumpTo optsAll none cam0).1 = (3, 4) ∧
    getBearing (jumpTo optsAll none cam0).1 = 17 ∧
    getPitch (jumpTo optsAll none cam0).1 = 20 :=
  ⟨(jumpTo_roundtrip optsAll none cam0).1 9 rfl,
   (jumpTo_roundtrip optsAll none cam0).2.1 (3, 4) rfl,
   (jumpTo_roundtrip optsAll none cam0).2.2.1 17 rfl,
   (jumpTo_roundtrip optsAll none cam0).2.2.2 20 rfl⟩

/-! ## Claims C5 and C10: synchronous `easeTo` -/

/-- The scalar interpolation reaches its endpoint at parameter one. -/
lemma interpolate_one (a b : ℚ) : interpolate a b 1 = b := by
  unfold interpolate; ring

/-- The trace of an `easeTo` frame is the `_fireMoveEvents` trace. -/
lemma runFrame_easeF_trace (math : ExtMath) (ops : TransformOps)
    (p : EaseFrameParams) (k : ℚ) (c : Camera) :
    (runFrame math ops (.easeF p) k c).2 = fireMoveEvents p.eventData c := rfl

/-- The `easeTo` finish without `delayEndEvents` is `_afterEase`. -/
lemma runFinish_easeFinish_nodelay (dly : Option ℚ) (ed : Option Nat)
    (c : Camera) (hd : dly.getD 0 = 0) :
    runFinish (.easeFinish dly ed) c = afterEase ed c := by
  simp [runFinish, hd]

/-- `_prepareEase` with a truthy `noMoveStart` fires no `movestart`. -/
lemma prepareEase_no_movestart (ed : Option Nat) (c : Camera) :
    EvName.movestart ∉ (prepareEase ed true c).2.map CamEv.name := by
  simp only [prepareEase]
  split_ifs <;> simp

/-- `_fireMoveEvents` fires no `movestart` and always fires `move`. -/
lemma fireMoveEvents_no_movestart (ed : Option Nat) (c : Camera) :
    EvName.movestart ∉ (fireMoveEvents ed c).map CamEv.name ∧
    EvName.move ∈ (fireMoveEvents ed c).map CamEv.name := by
  simp only [fireMoveEvents]
  split_ifs <;> simp

/-- `_afterEase` fires no `movestart` and always fires `moveend`. -/
lemma afterEase_no_movestart (ed : Option Nat) (c : Camera) :
    EvName.movestart ∉ (afterEase ed c).2.map CamEv.name ∧
    EvName.moveend ∈ (afterEase ed c).2.map CamEv.name := by
  simp only [afterEase]
  split_ifs <;> simp

/-- A finish callback fires no `movestart`. -/
lemma runFinish_no_movestart (f : FinishSpec) (c : Camera) :
    EvName.movestart ∉ (runFinish f c).2.map CamEv.name := by
  cases f with
  | easeFinish dly ed =>
      by_cases h : dly.getD 0 = 0 <;>
        simp [runFinish, h, (afterEase_no_movestart ed c).1]
  | flyFinish ed => simpa [runFinish] using (afterEase_no_movestart ed c).1

/-- The option bag of the C5 scenario. -/
def zoomOpts (z : ℚ) (d : Option ℚ) (an : Option Bool) : CamOptions :=
  { CamOptions.empty with zoom := some z, duration := d, animate := an }

/-- C5: on an idle camera, `easeTo({zoom: startZoom + 2, duration: 0})`
completes synchronously, firing exactly `movestart, zoomstart, move, zoom,
zoomend, moveend` in that order, with the transform zoom equal to
`startZoom + 2` at completion; `animate: false` forces the duration to
zero and gives the same synchronous behaviour. -/
theorem easeTo_zoom_sync (math : ExtMath) (ops : TransformOps)
    (ed : Option Nat) (c : Camera)
    (h1 : c.easeFrameId = none) (h2 : c.onEaseEnd = none) :
    ((easeTo math ops (zoomOpts (getZoom c + 2) (some 0) none) ed c).2 =
       [⟨.movestart, ed⟩, ⟨.zoomstart, ed⟩, ⟨.move, ed⟩, ⟨.zoom, ed⟩,
        ⟨.zoomend, ed⟩, ⟨.moveend, ed⟩] ∧
     getZoom (easeTo math ops (zoomOpts (getZoom c + 2) (some 0) none) ed c).1 =
       getZoom c + 2) ∧
    ((easeTo math ops (zoomOpts (getZoom c + 2) none (some false)) ed c).2 =
       [⟨.movestart, ed⟩, ⟨.zoomstart, ed⟩, ⟨.move, ed⟩, ⟨.zoom, ed⟩,
        ⟨.zoomend, ed⟩, ⟨.moveend, ed⟩] ∧
     getZoom (easeTo math ops (zoomOpts (getZoom c + 2) none (some false)) ed c).1 =
       getZoom c + 2) := by
  have hs := stop_of_idle c h1 h2
  have hz : c.transform.zoom + 2 ≠ c.transform.zoom := by intro h; linarith
  constructor <;> constructor <;>
    simp [easeTo, hs, zoomOpts, CamOptions.empty, easeDefaults, getZoom,
          prepareEase, ease, jseq, jnum, runFrame, fireMoveEvents, runFinish,
          afterEase, hz, interpolate_one, setLoc]

/-- Witness for C5 on the concrete camera: the synchronous trace and the
final zoom. -/
theorem easeTo_zoom_sync_witness :
    (easeTo math0 ops0 (zoomOpts (getZoom cam0 + 2) (some 0) none) none cam0).2 =
      [⟨.movestart, none⟩, ⟨.zoomstart, none⟩, ⟨.move, none⟩, ⟨.zoom, none⟩,
       ⟨.zoomend, none⟩, ⟨.moveend, none⟩] ∧
    getZoom (easeTo math0 ops0 (zoomOpts (getZoom cam0 + 2) (some 0) none) none cam0).1 =
      getZoom cam0 + 2 :=
  (easeTo_zoom_sync math0 ops0 none cam0 rfl rfl).1

/-- Synchronous `easeTo` (forced zero duration) produces the
`_prepareEase` trace, one `_fireMoveEvents` trace, and the trace of the
`easeTo` finish callback, in that order. -/
lemma easeTo_trace_sync (math : ExtMath) (ops : TransformOps) (o : CamOptions)
    (ed : Option Nat) (c : Camera)
    (h1 : c.easeFrameId = none) (h2 : c.onEaseEnd = none)
    (hsync : o.animate = some false ∨ o.duration = some 0) :
    ∃ c1 c2 c3,
      (easeTo math ops o ed c).2 =
        (prepareEase ed (o.noMoveStart.getD false) c1).2 ++
        (fireMoveEvents ed c2 ++
         (runFinish (.easeFinish o.delayEndEvents ed) c3).2) := by
  have hs := stop_of_idle c h1 h2
  by_cases ha : o.animate = some false
  · simp [easeTo, hs, easeDefaults, ha, ease, runFrame_easeF_trace]
    exact ⟨_, _, _, rfl⟩
  · have hd : o.duration = some 0 := by
      rcases hsync with h | h
      · exact absurd h ha
      · exact h
    simp [easeTo, hs, easeDefaults, ha, hd, ease, jseq, jnum,
          runFrame_easeF_trace]
    exact ⟨_, _, _, rfl⟩

/-- Any `easeTo` on an idle camera produces either just the
`_prepareEase` trace (a scheduled animation) or the synchronous shape. -/
lemma easeTo_trace_cases (math : ExtMath) (ops : TransformOps) (o : CamOptions)
    (ed : Option Nat) (c : Camera)
    (h1 : c.easeFrameId = none) (h2 : c.onEaseEnd = none) :
    (∃ c1, (easeTo math ops o ed c).2 =
            (prepareEase ed (o.noMoveStart.getD false) c1).2) ∨
    (∃ c1 c2 c3,
      (easeTo math ops o ed c).2 =
        (prepareEase ed (o.noMoveStart.getD false) c1).2 ++
        (fireMoveEvents ed c2 ++
         (runFinish (.easeFinish o.delayEndEvents ed) c3).2)) := by
  have hs := stop_of_idle c h1 h2
  by_cases ha : o.animate = some false
  · exact Or.inr (easeTo_trace_sync math ops o ed c h1 h2 (Or.inl ha))
  · by_cases hd : o.duration = some 0
    · exact Or.inr (easeTo_trace_sync math ops o ed c h1 h2 (Or.inr hd))
    · left
      have hz : o.duration.getD 500 ≠ 0 := by
        cases hdu : o.duration with
        | none => simp
        | some d =>
            simp only [Option.getD_some]
            intro hcontra
            exact hd (by rw [hdu, hcontra])
      simp [easeTo, hs, easeDefaults, ha, hz, ease, jseq, jnum, beq_iff_eq]
      exact ⟨_, rfl⟩

/-- C10: an `easeTo` started with the undocumented truthy `noMoveStart`
option never fires `movestart`; when the animation is synchronous
(`animate: false` or zero duration) and no `delayEndEvents` is set, the
per-frame `move` and the final `moveend` still fire, so the session
produces a `moveend` with no matching `movestart`. -/
theorem easeTo_noMoveStart (math : ExtMath) (ops : TransformOps)
    (o : CamOptions) (ed : Option Nat) (c : Camera)
    (hnm : o.noMoveStart = some true) (hde : o.delayEndEvents = none)
    (h1 : c.easeFrameId = none) (h2 : c.onEaseEnd = none) :
    EvName.movestart ∉ (easeTo math ops o ed c).2.map CamEv.name ∧
    ((o.animate = some false ∨ o.duration = some 0) →
      EvName.moveend ∈ (easeTo math ops o ed c).2.map CamEv.name ∧
      EvName.move ∈ (easeTo math ops o ed c).2.map CamEv.name) := by
  constructor
  · rcases easeTo_trace_cases math ops o ed c h1 h2 with ⟨c1, h⟩ | ⟨c1, c2, c3, h⟩ <;>
      rw [h, hnm] <;>
      simp only [Option.getD_some, List.map_append, List.mem_append]
    · exact prepareEase_no_movestart ed c1
    · push_neg
      exact ⟨prepareEase_no_movestart ed c1,
             (fireMoveEvents_no_movestart ed c2).1,
             runFinish_no_movestart _ c3⟩
  · intro hsync
    obtain ⟨c1, c2, c3, h⟩ := easeTo_trace_sync math ops o ed c h1 h2 hsync
    rw [h, hde]
    have hfin : runFinish (.easeFinish none ed) c3 = afterEase ed c3 :=
      runFinish_easeFinish_nodelay none ed c3 rfl
    rw [hfin]
    simp only [List.map_append, List.mem_append]
    exact ⟨Or.inr (Or.inr (afterEase_no_movestart ed c3).2),
           Or.inr (Or.inl (fireMoveEvents_no_movestart ed c2).2)⟩

/-! ## Claim C1: at most one animation, cancellation fires the end events -/

/-- A `takeWhile` over an append stops exactly at the head of the second
list when every element of the first satisfies the predicate and the head
of the second does not. -/
lemma takeWhile_append_of {α : Type} (p : α → Bool) (l1 l2 : List α)
    (h1 : ∀ x ∈ l1, p x = true) (h2 : ∀ y ∈ l2.head?, p y = false) :
    (l1 ++ l2).takeWhile p = l1 := by
  induction l1 with
  | nil =>
      cases l2 with
      | nil => rfl
      | cons y t => simp_all [List.takeWhile]
  | cons a t ih =>
      have ha := h1 a (by simp)
      simp only [List.cons_append, List.takeWhile, ha]
      simp [ih (fun x hx => h1 x (by simp [hx]))]

/-- `_afterEase` fires exactly one `moveend`. -/
lemma afterEase_countP_moveend (ed : Option Nat) (c : Camera) :
    (afterEase ed c).2.countP (fun e => e.name == EvName.moveend) = 1 := by
  simp only [afterEase]
  split_ifs <;> rfl

/-- `stop` never fires a `movestart`. -/
lemma stop_no_movestart (c : Camera) :
    EvName.movestart ∉ (stop c).2.map CamEv.name := by
  have hgen : ∀ (f : FinishSpec) (cc : Camera),
      ∀ x ∈ (runFinish f cc).2, ¬x.name = EvName.movestart := by
    intro f cc x hx hxx
    apply runFinish_no_movestart f cc
    rw [← hxx]
    exact List.mem_map_of_mem CamEv.name hx
  unfold stop stopWith
  cases hF : c.easeFrameId <;> cases hE : c.onEaseEnd <;>
    simp [hF, hE] <;> exact hgen _ _

/-- `stop` of a camera with a pending non-delayed `easeTo` completion is
an `_afterEase` on some state. -/
lemma stop_pending_shape (c : Camera) (d : Option ℚ) (ed1 : Option Nat)
    (hfl : c.onEaseEnd = some (.easeFinish d ed1)) (hd : d.getD 0 = 0) :
    ∃ c3, stop c = afterEase ed1 c3 := by
  unfold stop stopWith
  cases hF : c.easeFrameId <;> simp [hF, hfl, runFinish, hd]

/-- Decomposition of an `easeTo` trace on an arbitrary camera: the trace
of the implicit `stop`, then the `_prepareEase` trace, then (for a
synchronous animation) one `_fireMoveEvents` trace and the finish trace,
or (for a scheduled animation) nothing. -/
lemma easeTo_trace_decomp (math : ExtMath) (ops : TransformOps)
    (o : CamOptions) (ed : Option Nat) (c : Camera) :
    ∃ c1 rest,
      (easeTo math ops o ed c).2 =
        (stop c).2 ++ ((prepareEase ed (o.noMoveStart.getD false) c1).2 ++ rest) := by
  by_cases ha : o.animate = some false
  · simp [easeTo, easeDefaults, ha, ease, runFrame_easeF_trace]
    exact ⟨_, _, rfl⟩
  · by_cases hd : o.duration.getD 500 = 0
    · simp [easeTo, easeDefaults, ha, hd, ease, jseq, jnum,
            runFrame_easeF_trace]
      exact ⟨_, _, rfl⟩
    · simp [easeTo, easeDefaults, ha, hd, ease, jseq, jnum, beq_iff_eq]
      exact ⟨_, [], by rw [List.append_nil]⟩

/-- The `_prepareEase` trace without `noMoveStart` begins with
`movestart`. -/
lemma prepareEase_false_head (ed : Option Nat) (c : Camera) :
    ∃ t, (prepareEase ed false c).2 = ⟨.movestart, ed⟩ :: t := by
  simp [prepareEase]

/-- C1 (amended: the first animation must have been started without
`delayEndEvents`): every entry point runs `stop` first, so its trace
begins with the full `stop` trace; and starting a second `easeTo` while a
first `easeTo` animation is in flight fires exactly one `moveend` — the
cancelled animation's — before the second animation's `movestart`. -/
theorem easeTo_cancellation_contract (math : ExtMath) (ops : TransformOps)
    (o : CamOptions) (ed ed1 : Option Nat) (c : Camera) (d : Option ℚ)
    (hfl : c.onEaseEnd = some (.easeFinish d ed1)) (hd : d.getD 0 = 0)
    (hnm : o.noMoveStart.getD false = false) :
    ((easeTo math ops o ed c).2.takeWhile
        (fun e => !(e.name == EvName.movestart))).countP
      (fun e => e.name == EvName.moveend) = 1 ∧
    EvName.movestart ∈ (easeTo math ops o ed c).2.map CamEv.name ∧
    (∀ (o2 : CamOptions) (ed2 : Option Nat) (c2 : Camera),
      (easeTo math ops o2 ed2 c2).2.take (stop c2).2.length = (stop c2).2) ∧
    (∀ (o2 : CamOptions) (ed2 : Option Nat) (c2 : Camera),
      (jumpTo o2 ed2 c2).2.take (stop c2).2.length = (stop c2).2) ∧
    (∀ (o2 : CamOptions) (ed2 : Option Nat) (c2 : Camera),
      (flyTo math ops o2 ed2 c2).2.take (stop c2).2.length = (stop c2).2) := by
  obtain ⟨c3, hstop⟩ := stop_pending_shape c d ed1 hfl hd
  obtain ⟨c1, rest, hdec⟩ := easeTo_trace_decomp math ops o ed c
  rw [hnm] at hdec
  obtain ⟨t, hpe⟩ := prepareEase_false_head ed c1
  refine ⟨?_, ?_, ?_, ?_, ?_⟩
  · rw [hdec, takeWhile_append_of]
    · rw [hstop]
      exact afterEase_countP_moveend ed1 c3
    · intro x hx
      by_cases hxx : x.name = EvName.movestart
      · exfalso
        apply stop_no_movestart c
        rw [← hxx]
        exact List.mem_map_of_mem CamEv.name hx
      · simp [beq_eq_false_iff_ne, hxx]
    · intro y hy
      rw [hpe] at hy
      simp at hy
      subst hy
      rfl
  · rw [hdec, hpe]
    simp
  · intro o2 ed2 c2
    obtain ⟨c1b, restb, hdecb⟩ := easeTo_trace_decomp math ops o2 ed2 c2
    rw [hdecb]
    exact List.take_left _ _
  · intro o2 ed2 c2
    simp only [jumpTo, List.append_assoc]
    exact List.take_left _ _
  · intro o2 ed2 c2
    simp only [flyTo]
    split <;>
      simp only [List.append_assoc] <;>
      exact List.take_left _ _

section RatEval2
attribute [local semireducible] Rat.add Rat.mul Rat.inv Rat.sub Rat.neg Rat.div

/-- A camera with an `easeTo` animation in flight that was started with
`delayEndEvents`. -/
def cexCamera : Camera :=
  (easeTo math0 ops0
    { CamOptions.empty with zoom := some 7, duration := some 100, delayEndEvents := some 1 }
    none cam0).1

/-- Counterexample to C1 as stated: on a first `easeTo` started with the
(undocumented) `delayEndEvents` option and still in flight, a second
`easeTo` fires zero `moveend` events before its own `movestart` — the
cancelled animation's end events are deferred to a timeout that the
second `easeTo` then clears. -/
theorem easeTo_cancellation_counterexample :
    cexCamera.onEaseEnd = some (.easeFinish (some 1) none) ∧
    cexCamera.easeFrameId.isSome = true ∧
    ((easeTo math0 ops0 CamOptions.empty none cexCamera).2.takeWhile
        (fun e => !(e.name == EvName.movestart))).countP
      (fun e => e.name == EvName.moveend) = 0 ∧
    EvName.movestart ∈ (easeTo math0 ops0 CamOptions.empty none cexCamera).2.map CamEv.name :=
  ⟨by decide, by decide, by decide, by decide⟩

/-- A camera with an `easeTo` animation in flight, started without
`delayEndEvents`. -/
def pendingCamera : Camera :=
  (easeTo math0 ops0 { CamOptions.empty with zoom := some 7, duration := some 100 }
    none cam0).1

end RatEval2

/-- Witness for C1 on the concrete in-flight camera: a second `easeTo`
fires exactly one `moveend` before its `movestart`. -/
theorem easeTo_cancellation_contract_witness :
    ((easeTo math0 ops0 CamOptions.empty none pendingCamera).2.takeWhile
        (fun e => !(e.name == EvName.movestart))).countP
      (fun e => e.name == EvName.moveend) = 1 ∧
    EvName.movestart ∈
      (easeTo math0 ops0 CamOptions.empty none pendingCamera).2.map CamEv.name :=
  ⟨(easeTo_cancellation_contract math0 ops0 CamOptions.empty none none
      pendingCamera none (by decide) rfl rfl).1,
   (easeTo_cancellation_contract math0 ops0 CamOptions.empty none none
      pendingCamera none (by decide) rfl rfl).2.1⟩

/-- The option bag of the C10 witness. -/
def nmsOpts : CamOptions :=
  { CamOptions.empty with zoom := some 7, duration := some 0, noMoveStart := some true }

/-- Witness for C10 on the concrete camera: a synchronous `noMoveStart`
ease fires `moveend` (and `move`) but no `movestart`. -/
theorem easeTo_noMoveStart_witness :
    EvName.movestart ∉ (easeTo math0 ops0 nmsOpts none cam0).2.map CamEv.name ∧
    EvName.moveend ∈ (easeTo math0 ops0 nmsOpts none cam0).2.map CamEv.name :=
  ⟨(easeTo_noMoveStart math0 ops0 nmsOpts none cam0 rfl rfl rfl rfl).1,
   ((easeTo_noMoveStart math0 ops0 nmsOpts none cam0 rfl rfl rfl rfl).2 (Or.inr rfl)).1⟩


/-! ## Claim C7: `cameraForBounds` failure and `fitBounds` no-op -/

/-- C7: `cameraForBounds` returns nothing exactly when the padding key
set is not `bottom, left, right, top` or a required scale factor is
negative in either axis; it logs a warning exactly in those cases; and in
every such case `fitBounds` with the same arguments returns the camera
unchanged and fires no event.  `cameraForBounds` itself takes the camera
state read-only and returns only an option bag, so it mutates nothing. -/
theorem cameraForBounds_failure_contract (math : ExtMath) (ops : TransformOps)
    (c : Camera) (b : Bounds) (o : CamOptions) (ed : Option Nat) :
    ((cameraForBounds ops c.transform b o).1 = none ↔
      (cfbPaddingOk (cfbPadding o) = false ∨
       cfbScaleX ops c.transform b o < 0 ∨ cfbScaleY ops c.transform b o < 0)) ∧
    ((cameraForBounds ops c.transform b o).2 ≠ [] ↔
      (cfbPaddingOk (cfbPadding o) = false ∨
       cfbScaleX ops c.transform b o < 0 ∨ cfbScaleY ops c.transform b o < 0)) ∧
    ((cfbPaddingOk (cfbPadding o) = false ∨
      cfbScaleX ops c.transform b o < 0 ∨ cfbScaleY ops c.transform b o < 0) →
      fitBounds math ops c b o ed = (c, [])) := by
  by_cases hp : cfbPaddingOk (cfbPadding o) = true
  · by_cases hsc : cfbScaleY ops c.transform b o < 0 ∨ cfbScaleX ops c.transform b o < 0
    · refine ⟨?_, ?_, ?_⟩ <;>
        simp [cameraForBounds, fitBounds, hp, hsc, paddingWarning, fitWarning] <;>
        tauto
    · push_neg at hsc
      refine ⟨?_, ?_, ?_⟩ <;>
        simp [cameraForBounds, fitBounds, hp, hsc.1.not_lt, hsc.2.not_lt]
  · have hp2 : cfbPaddingOk (cfbPadding o) = false := by
      cases hq : cfbPaddingOk (cfbPadding o)
      · rfl
      · exact absurd hq hp
    refine ⟨?_, ?_, ?_⟩ <;>
      simp [cameraForBounds, fitBounds, hp2]

section RatEval3
attribute [local semireducible] Rat.add Rat.mul Rat.inv Rat.sub Rat.neg Rat.div

/-- Small bounds used by the C7 witness. -/
def boundsW : Bounds := ⟨-1, -1, 1, 1⟩

/-- An option bag whose top padding dwarfs the viewport. -/
def oPad : CamOptions :=
  { CamOptions.empty with
      padding := some (.obj [("top", 1000000), ("bottom", 0), ("left", 0), ("right", 0)]) }

/-- Witness for C7: with a `top` padding of a million pixels against the
hundred-pixel viewport, `cameraForBounds` returns nothing and `fitBounds`
leaves the camera untouched and fires nothing. -/
theorem cameraForBounds_failure_witness :
    (cameraForBounds ops1 cam0.transform boundsW oPad).1 = none ∧
    fitBounds math0 ops1 cam0 boundsW oPad none = (cam0, []) :=
  ⟨(cameraForBounds_failure_contract math0 ops1 cam0 boundsW oPad none).1.mpr
     (Or.inr (Or.inr (by decide))),
   (cameraForBounds_failure_contract math0 ops1 cam0 boundsW oPad none).2.2
     (Or.inr (Or.inr (by decide)))⟩

end RatEval3

/-! ## Claim C8: `flyTo` degeneracy fallback -/

/-- The degeneracy flag of the flight path is the disjunction the source
tests: near-zero planar distance or a non-finite initial path length. -/
lemma flyParams_degenerate_eq (math : ExtMath) (ops : TransformOps)
    (o : CamOptions) (tr : Transform) :
    (flyParams math ops o tr).degenerate =
      (jlt (jabs (flyParams math ops o tr).u1) (jnum (1/1000000)) ||
       !(flyParams math ops o tr).s0.isFinite) := rfl

/-- The delegation flag of the flight path: degenerate and nearly equal
spans. -/
lemma flyParams_delegate_eq (math : ExtMath) (ops : TransformOps)
    (o : CamOptions) (tr : Transform) :
    (flyParams math ops o tr).delegate =
      ((flyParams math ops o tr).degenerate &&
       jlt (jabs (jsub (jnum (flyParams math ops o tr).w0)
                       (flyParams math ops o tr).w1))
           (jnum (1/1000000))) := rfl

/-- On a degenerate path the synthesized flight path is a pure zoom: the
pan component is constantly zero, the span is the exponential in the path
parameter, and the path length is the logarithmic span ratio. -/
lemma flyParams_path_degenerate (math : ExtMath) (ops : TransformOps)
    (o : CamOptions) (tr : Transform)
    (h : (flyParams math ops o tr).degenerate = true) :
    (flyParams math ops o tr).u = (fun _ => jnum 0) ∧
    (flyParams math ops o tr).w =
      (fun s => math.exp (jmul (jmul
        (jnum (if jlt (flyParams math ops o tr).w1
                      (jnum (flyParams math ops o tr).w0) then -1 else 1))
        (flyParams math ops o tr).rho) s)) ∧
    (flyParams math ops o tr).pathS =
      jdiv (jabs (math.log (jdiv (flyParams math ops o tr).w1
                                 (jnum (flyParams math ops o tr).w0))))
           (flyParams math ops o tr).rho := by
  simp only [flyParams] at h ⊢
  rw [if_pos h, if_pos h, if_pos h]
  exact ⟨rfl, rfl, rfl⟩

/-- An `easeTo` on any camera equals the `easeTo` on the stopped camera
with the `stop` trace prepended: the implicit second `stop` is a no-op. -/
lemma easeTo_stop_absorb (math : ExtMath) (ops : TransformOps)
    (o : CamOptions) (ed : Option Nat) (c : Camera) :
    easeTo math ops o ed c =
      ((easeTo math ops o ed (stop c).1).1,
       (stop c).2 ++ (easeTo math ops o ed (stop c).1).2) := by
  conv_rhs => rw [easeTo]
  rw [stop_stop]
  conv_lhs => rw [easeTo]
  simp

/-- The flight-path quantities `flyTo` derives for a camera: those of
`flyParams` on the stopped camera and the extended options. -/
def flyP (math : ExtMath) (ops : TransformOps) (o : CamOptions) (c : Camera) :
    FlyParams :=
  flyParams math ops (flyDefaults o) (stop c).1.transform

/-- C8: when the flight path is degenerate — the planar pixel distance
`u1` is below `1e-6` in magnitude or the computed path length `S` is not
finite — `flyTo` either delegates entirely to `easeTo` with its extended
options (when the initial and final spans differ by less than `1e-6`), or
synthesizes a pure zoom-only path whose pan component `u` is constantly
zero and whose span `w` is an exponential in the path parameter. -/
theorem flyTo_degenerate_contract (math : ExtMath) (ops : TransformOps)
    (o : CamOptions) (ed : Option Nat) (c : Camera)
    (hdeg : jlt (jabs (flyP math ops o c).u1) (jnum (1/1000000)) = true ∨
            (flyP math ops o c).s0.isFinite = false) :
    (jlt (jabs (jsub (jnum (flyP math ops o c).w0) (flyP math ops o c).w1))
        (jnum (1/1000000)) = true →
      flyTo math ops o ed c = easeTo math ops (flyDefaults o) ed c) ∧
    (jlt (jabs (jsub (jnum (flyP math ops o c).w0) (flyP math ops o c).w1))
        (jnum (1/1000000)) = false →
      (flyP math ops o c).u = (fun _ => jnum 0) ∧
      (flyP math ops o c).w =
        (fun s => math.exp (jmul (jmul
          (jnum (if jlt (flyP math ops o c).w1 (jnum (flyP math ops o c).w0)
                 then -1 else 1)) (flyP math ops o c).rho) s)) ∧
      (flyP math ops o c).pathS =
        jdiv (jabs (math.log (jdiv (flyP math ops o c).w1
                                   (jnum (flyP math ops o c).w0))))
             (flyP math ops o c).rho) := by
  simp only [flyP] at hdeg
  have hd : (flyParams math ops (flyDefaults o) (stop c).1.transform).degenerate = true := by
    rw [flyParams_degenerate_eq, Bool.or_eq_true]
    rcases hdeg with h | h
    · exact Or.inl h
    · right
      simp [h]
  constructor
  · intro hw
    simp only [flyP] at hw
    have hdel : (flyParams math ops (flyDefaults o) (stop c).1.transform).delegate = true := by
      rw [flyParams_delegate_eq, hd, hw]
      rfl
    rw [easeTo_stop_absorb math ops (flyDefaults o) ed c]
    simp only [flyTo, hdel]
    simp
  · intro _
    simp only [flyP]
    exact flyParams_path_degenerate math ops (flyDefaults o) (stop c).1.transform hd

section RatEval4
attribute [local semireducible] Rat.add Rat.mul Rat.inv Rat.sub Rat.neg Rat.div

/-- The option bag of the C8 witness: fly to the current centre and
zoom. -/
def o8 : CamOptions :=
  { CamOptions.empty with center := some ((0 : ℚ), (0 : ℚ)), zoom := some 5 }

/-- Witness for C8: `flyTo` at the current centre and zoom delegates to
`easeTo` and so completes through the fallback path. -/
theorem flyTo_degenerate_witness :
    flyTo math0 ops0 o8 none cam0 = easeTo math0 ops0 (flyDefaults o8) none cam0 :=
  (flyTo_degenerate_contract math0 ops0 o8 none cam0 (Or.inl (by decide))).1
    (by decide)

end RatEval4


/-! ## Claim C3: the event-bus dispatch contract -/

/-- The persistent-listener loop invokes exactly its snapshot list, in
order, each with the same event value, regardless of how the listener
actions mutate the threaded registries. -/
lemma runListeners_log (env : Nat → LAct) (e : JEvent) (ls : List Nat)
    (ev : Evented) :
    (runListeners env e ls ev).2 = ls.map (fun l => LogEntry.invoke l e) := by
  induction ls generalizing ev with
  | nil => rfl
  | cons l rest ih => simp [runListeners, ih]

/-- The one-time-listener loop removes each listener of its snapshot from
the registry and then invokes it, in order, regardless of the listener
actions. -/
lemma runOnceListeners_log (env : Nat → LAct) (e : JEvent) (ls : List Nat)
    (ev : Evented) :
    (runOnceListeners env e ls ev).2 =
      ls.flatMap (fun l => [LogEntry.removedOnce l, LogEntry.invoke l e]) := by
  induction ls generalizing ev with
  | nil => rfl
  | cons l rest ih => simp [runOnceListeners, ih]

/-- C3: when some listener for the event type exists on the instance or
an ancestor, `fire` logs — for every possible re-entrant registry
mutation by the listeners — first the invocation of the snapshot of
persistent listeners taken at entry, in registration order, each receiving
the event stamped with `target`; then, for some snapshot of one-time
listeners, each removal-then-invocation; then, exactly when a parent is
set, the log of firing the event with the parent data merged into its
payload on the parent.  When no listener exists anywhere, an `ErrorEvent`
is reported to the console and any other event is dropped silently. -/
theorem evented_fire_contract (env : Nat → LAct) (ev : Evented) (e : JEvent) :
    (listens ev e.type = true →
      ∃ (ots : List Nat) (rest : List LogEntry),
        (fire env ev e).2 =
          ((regGet ev.listenersOf e.type).map
              (fun l => LogEntry.invoke l { e with target := some ev.idOf }) ++
            ots.flatMap (fun l =>
              [LogEntry.removedOnce l,
               LogEntry.invoke l { e with target := some ev.idOf }])) ++ rest ∧
        (ev.parentOf = none → rest = []) ∧
        (∀ p, ev.parentOf = some p →
          rest = (fire env p
            { e with target := some ev.idOf,
                     payload := objExtend e.payload
                                  (evalPData ev.parentDataOf) }).2)) ∧
    (listens ev e.type = false → e.isError = true →
      fire env ev e = (ev, [LogEntry.consoleError e])) ∧
    (listens ev e.type = false → e.isError = false →
      fire env ev e = (ev, [])) := by
  cases ev with
  | mk i ls ot par pd =>
      refine ⟨?_, ?_, ?_⟩
      · intro hl
        cases par with
        | none =>
            apply Exists.intro
            apply Exists.intro []
            refine ⟨?_, ?_, ?_⟩
            · simp only [fire, hl, if_true, Evented.idOf, Evented.listenersOf]
              rw [runListeners_log, runOnceListeners_log, List.append_nil]
            · intro _
              rfl
            · intro p hp
              exact Option.noConfusion hp
        | some q =>
            apply Exists.intro
            apply Exists.intro
            refine ⟨?_, ?_, ?_⟩
            · simp only [fire, hl, if_true, Evented.idOf, Evented.listenersOf]
              rw [runListeners_log, runOnceListeners_log]
            · intro h
              exact Option.noConfusion h
            · intro p hp
              injection hp with hq
              subst hq
              rfl
      · intro hl herr
        simp [fire, hl, herr]
      · intro hl herr
        simp [fire, hl, herr]

/-- A concrete bus for the C3 witness: instance `1` with two persistent
and one one-time `move` listeners, forwarding to parent `2` which has one
persistent `move` listener. -/
def evW : Evented :=
  .mk 1 [("move", [10, 11])] [("move", [12])]
    (some (.mk 2 [("move", [20])] [] none none)) none

/-- The concrete event of the C3 witness. -/
def eW : JEvent := ⟨"move", none, [], false⟩

/-- The listener environment of the C3 witness: every listener leaves the
registries unchanged. -/
def envW : Nat → LAct := fun _ => .nop

/-- Witness for C3 on the concrete bus: the dispatch decomposes into the
persistent snapshot, the one-time removals and invocations, and the
parent dispatch. -/
theorem evented_fire_contract_witness :
    ∃ (ots : List Nat) (rest : List LogEntry),
      (fire envW evW eW).2 =
        ((regGet evW.listenersOf eW.type).map
            (fun l => LogEntry.invoke l { eW with target := some evW.idOf }) ++
          ots.flatMap (fun l =>
            [LogEntry.removedOnce l,
             LogEntry.invoke l { eW with target := some evW.idOf }])) ++ rest ∧
      (evW.parentOf = none → rest = []) ∧
      (∀ p, evW.parentOf = some p →
        rest = (fire envW p
          { eW with target := some evW.idOf,
                    payload := objExtend eW.payload
                                 (evalPData evW.parentDataOf) }).2) :=
  (evented_fire_contract envW evW eW).1 (by decide)

end Mapbox
